import Mathlib

/-!
Verification of the audio capture core in `src/audio/mic_worker.py`
(`MicWorker`, `SirenState`).

The Python source is shallowly embedded:
* the sample ring buffer (`MicWorker._write_ring`, `MicWorker._read_latest_window`)
  becomes pure functions on a `RingBuf` record holding the backing list and the
  write cursor (numpy slice assignments become list `take`/`drop`/append surgery);
* `SirenState` (the shared dataclass) becomes a Lean structure with the same
  fields and defaults; Python floats are idealized as `ℚ` where only comparison
  and copying happens and as `ℝ` where `sqrt`/`log10` occur;
* the real-time callback (`MicWorker._callback`) becomes a function returning
  the mutated state paired with `Option String`: `some e` means a Python
  exception `e` escaped after the mutations already made (the callback body has
  no try/except, so mutations made before the raise are retained);
* the supervisor loop (`MicWorker.run_loop`) is split into the inner poll loop
  (driven by a finite list of `Tick` observations: each tick provides the
  wall-clock `now`, the heartbeat `last_cb_ts` value published concurrently by
  the callback thread, and the polled `_stop` flag) and one outer iteration
  (open / run / except / finally), with `time.sleep` calls recorded in a list
  of slept durations instead of actually sleeping.
-/

/-- Fixed-capacity ring buffer: `buf` is the backing storage
(`self._buf`, a numpy array of length `self._need * 4`), `w` the write
cursor (`self._w`). -/
structure RingBuf (α : Type) where
  buf : List α
  w : Nat
  deriving Repr, DecidableEq

/-- `MicWorker._write_ring` (mic_worker.py lines 69-83): append `x` at the
cursor, splitting into a tail segment and a wrapped head segment when the
write crosses the end of the backing storage; cursor advances to
`(w + n) % L`.  No-op on zero-length input. -/
def writeRing {α : Type} (r : RingBuf α) (x : List α) : RingBuf α :=
  let n := x.length
  if n = 0 then r
  else
    let L := r.buf.length
    let endI := r.w + n
    if endI ≤ L then
      -- self._buf[self._w:end] = x
      { buf := r.buf.take r.w ++ x ++ r.buf.drop endI, w := endI % L }
    else
      -- first = L - self._w
      -- self._buf[self._w:] = x[:first]; self._buf[:end-L] = x[first:]
      let first := L - r.w
      { buf := x.drop first ++ (r.buf.take r.w).drop (endI - L) ++ x.take first,
        w := endI % L }

/-- `MicWorker._read_latest_window` (mic_worker.py lines 85-94), with the
window length (`self._need` in the source, a field of the worker) passed as
the parameter `need`: `start = (w - need) % L`; one contiguous slice when
`start < w`, otherwise the concatenation of `buf[start:]` and `buf[:w]`.
The Python `%` on possibly negative ints is `Int.emod`. -/
def readLatestWindow {α : Type} (r : RingBuf α) (need : Nat) : List α :=
  let L := r.buf.length
  let start := (((r.w : Int) - (need : Int)) % (L : Int)).toNat
  if start < r.w then
    (r.buf.take r.w).drop start        -- self._buf[start:self._w].copy()
  else
    r.buf.drop start ++ r.buf.take r.w -- np.concatenate([buf[start:], buf[:w]])

/-- The zero-initialised ring of `MicWorker.__init__`:
`self._buf = np.zeros(self._need * 4)`, `self._w = 0`. -/
def ringInit (need : Nat) : RingBuf Int :=
  { buf := List.replicate (need * 4) 0, w := 0 }

/-- The shared `SirenState` dataclass (mic_worker.py lines 8-19), same fields
and defaults. `conf`, `last_cb_ts` are idealized as `ℚ`; the meter outputs
`rms`, `db` as `ℝ` (they are produced by `sqrt`/`log10`). -/
structure SirenState where
  label : String := "traffic"
  conf : ℚ := 0
  consecutive_hits : Nat := 0
  triggered : Bool := false
  last_error : String := ""
  rms : ℝ := 0
  db : ℝ := -120
  sr_used : Nat := 0
  last_cb_ts : ℚ := 0
  overflows : Nat := 0

/-- A default-constructed `SirenState()` (all dataclass defaults). -/
def state0 : SirenState := {}

/-- Python `"overflow" in s.lower()`: case-insensitive substring test. -/
def hasOverflow (s : String) : Bool :=
  decide ("overflow".toList <:+: s.toList.map Char.toLower)

/-- The status-handling prefix of `MicWorker._callback`
(mic_worker.py lines 96-101): on a truthy (non-empty) status string, copy it
into `last_error` and bump `overflows` when it contains "overflow"
case-insensitively. -/
def statusStep (st : SirenState) (status : String) : SirenState :=
  if status = "" then st
  else
    let st1 := { st with last_error := status }
    if hasOverflow status then { st1 with overflows := st1.overflows + 1 }
    else st1

example : hasOverflow "input OVERFLOW detected" = true := by decide
example : hasOverflow "underrun" = false := by decide
example : writeRing (ringInit 1) [7] = { buf := [7, 0, 0, 0], w := 1 } := by decide
example :
    writeRing ({ buf := [1, 2, 3, 4], w := 3 } : RingBuf Int) [9, 9] =
      ({ buf := [9, 2, 3, 9], w := 1 } : RingBuf Int) := by decide
example : readLatestWindow ({ buf := [1, 2, 3, 4], w := 2 } : RingBuf Int) 3 = [4, 1, 2] := by
  decide
example : readLatestWindow ({ buf := [1, 2, 3, 4], w := 2 } : RingBuf Int) 2 = [1, 2] := by decide

/-- `self._meter_alpha = 0.20` (mic_worker.py line 59). -/
def meterAlpha : ℚ := 1/5

/-- One EMA update of the level meter (mic_worker.py line 106):
`meter = alpha * rms + (1 - alpha) * meter`. -/
def meterStep (m r : ℚ) : ℚ := meterAlpha * r + (1 - meterAlpha) * m

/-- The meter after feeding a sequence of per-block instantaneous RMS values,
starting from `self._meter_rms = 0.0` (mic_worker.py line 58). -/
def meterRun (rs : List ℚ) : ℚ := rs.foldl meterStep 0

/-- Closed-form EMA from the spec: for blocks `r_0..r_k`,
`m_k = sum over i of alpha * (1 - alpha) ^ (k - i) * r_i`. -/
def emaClosed (rs : List ℚ) : ℚ :=
  ∑ i ∈ Finset.range rs.length,
    meterAlpha * (1 - meterAlpha) ^ (rs.length - 1 - i) * rs.getD i 0

/-- The dB value published after the last block (mic_worker.py line 108):
`self.state.db = 20.0 * math.log10(self._meter_rms + 1e-12)`. -/
noncomputable def dbPublished (rs : List ℚ) : ℝ :=
  20 * Real.logb 10 ((meterRun rs : ℝ) + 1e-12)

/-- The cadence-step body of `MicWorker.run_loop` (mic_worker.py lines
152-163) as it is written: after `audio = self._read_latest_window()` (a pure
read of the ring) the inference call is stubbed out — `label, conf =
"traffic", 0.0` with `self.infer` never invoked — and the classification
fields are unconditionally reset. -/
def cadenceUpdate (st : SirenState) : SirenState :=
  { st with consecutive_hits := 0, label := "traffic", conf := 0,
            triggered := false }

/-- The stall error text (mic_worker.py line 149). -/
def stallMsg : String := "Audio callback stalled. Restarting stream..."

/-- One observation made by the supervisor poll loop at the top of a tick:
the polled `self._stop` flag, the wall clock `now = time.time()`, and the
heartbeat `self.state.last_cb_ts` as published concurrently by the callback
thread. -/
structure Tick where
  stopFlag : Bool
  now : ℚ
  cbTs : ℚ
  deriving Repr, DecidableEq

/-- The stall test of mic_worker.py line 148:
`if self.state.last_cb_ts and (now - self.state.last_cb_ts) > 1.5`
(`last_cb_ts` is truthy exactly when non-zero). -/
def stallCond (t : Tick) : Bool :=
  decide (t.cbTs ≠ 0 ∧ 3/2 < t.now - t.cbTs)

/-- How one run of the inner poll loop ended: the external stop flag was
observed, the stall break fired, or the finite tick supply ran out. -/
inductive InnerExit where
  | stopped
  | stall
  | fuelOut
  deriving Repr, DecidableEq

/-- Result of a run of the inner poll loop: final state, final `last_run`,
exit cause, and how many stall transitions were taken. -/
structure InnerResult where
  st : SirenState
  lastRun : ℚ
  exit : InnerExit
  stalls : Nat

/-- The inner `while not self._stop:` poll loop of `MicWorker.run_loop`
(mic_worker.py lines 146-166), driven by a finite list of tick
observations: stop check at the loop head, then the stall check (break),
then the cadence check resetting `last_run`; `time.sleep(0.02)` has no
state effect and is not recorded here. -/
def innerLoop (wsec : ℚ) : List Tick → SirenState → ℚ → InnerResult
  | [], st, lr => ⟨st, lr, InnerExit.fuelOut, 0⟩
  | t :: ts, st, lr =>
    if t.stopFlag then ⟨st, lr, InnerExit.stopped, 0⟩
    else if stallCond t then
      ⟨{ st with last_error := stallMsg }, lr, InnerExit.stall, 1⟩
    else if wsec ≤ t.now - lr then
      innerLoop wsec ts (cadenceUpdate st) t.now
    else
      innerLoop wsec ts st lr

/-- Which teardown calls were made by the `finally` block. -/
structure Teardown where
  stopCalled : Bool
  closeCalled : Bool
  deriving Repr, DecidableEq

/-- The `try: if stream is not None: stream.stop(); stream.close()` body of
the `finally` block (mic_worker.py lines 172-176).  Returns the calls made
and `some e` when one of them raised (a raise in `stream.stop()` skips
`stream.close()`). -/
def teardownBody (opened stopRaises closeRaises : Bool) :
    Teardown × Option String :=
  if opened then
    if stopRaises then (⟨true, false⟩, some "stop failed")
    else if closeRaises then (⟨true, true⟩, some "close failed")
    else (⟨true, true⟩, none)
  else (⟨false, false⟩, none)

/-- Environment for one iteration of the outer `while not self._stop:` loop:
whether the device query in `_open_stream` raises, whether `stream.start()`
raises, the exception text, the device default sample rate, the inner-loop
tick observations, the `self._stop` value polled in the `finally` block, and
whether the teardown calls raise.  (A raise inside `_open_stream` after the
device query behaves like `openFails` with `sr_used` already updated; no
claim depends on that distinction, so it is not modelled separately.) -/
structure IterEnv where
  openFails : Bool
  startFails : Bool
  errMsg : String
  defaultSr : Nat
  ticks : List Tick
  stopAtFinally : Bool
  stopRaises : Bool
  closeRaises : Bool

/-- The `try:` body of one outer-loop iteration (mic_worker.py lines
138-166): open the stream (`_open_stream` republishes `sr_used` from the
device default), start it, clear `last_error`, set `last_run = 0.0`, then run
the inner poll loop.  Returns ((state, stream-was-assigned, inner exit),
escaped exception). -/
def iterBody (wsec : ℚ) (env : IterEnv) (st0 : SirenState) :
    (SirenState × Bool × Option InnerExit) × Option String :=
  if env.openFails then ((st0, false, none), some env.errMsg)
  else
    let stO := { st0 with sr_used := env.defaultSr }
    if env.startFails then ((stO, true, none), some env.errMsg)
    else
      let R := innerLoop wsec env.ticks { stO with last_error := "" } 0
      ((R.st, true, some R.exit), none)

/-- Result of one outer-loop iteration: final shared state, the durations
passed to `time.sleep` in order, whether a stream object was assigned, the
inner-loop exit (when the loop was reached), the teardown calls, the
exception raised inside the teardown `try` (before being swallowed), and the
exception escaping the whole iteration. -/
structure IterResult where
  st : SirenState
  sleeps : List ℚ
  opened : Bool
  innerExit : Option InnerExit
  td : Teardown
  tdError : Option String
  escaped : Option String

/-- One full iteration of the outer loop of `MicWorker.run_loop`
(mic_worker.py lines 136-181): the `try` body, the
`except Exception as e:` handler (records `"Stream error: ..."` and sleeps
0.5 s), and the `finally:` block (best-effort teardown inside
`try/except: pass`, then `if not self._stop: time.sleep(0.25)`). -/
def runIteration (wsec : ℚ) (env : IterEnv) (st0 : SirenState) : IterResult :=
  let b := iterBody wsec env st0
  let st1 := b.1.1
  let opened := b.1.2.1
  let ex := b.1.2.2
  let st2 :=
    match b.2 with
    | some e => { st1 with last_error := "Stream error: " ++ e }
    | none => st1
  let sleeps1 : List ℚ :=
    match b.2 with
    | some _ => [1/2]
    | none => []
  let tdp := teardownBody opened env.stopRaises env.closeRaises
  let sleeps2 : List ℚ := if env.stopAtFinally then [] else [1/4]
  { st := st2, sleeps := sleeps1 ++ sleeps2, opened := opened, innerExit := ex,
    td := tdp.1, tdError := tdp.2, escaped := none }

/-- `x = indata[:, 0]` (mic_worker.py line 103): take channel 0 of each
frame; numpy raises an IndexError when axis 1 is empty. -/
def downmix (indata : List (List ℝ)) : Except String (List ℝ) :=
  indata.mapM fun row =>
    match row with
    | [] => Except.error "IndexError: index 0 is out of bounds for axis 1"
    | v :: _ => Except.ok v

/-- `rms = float(np.sqrt(np.mean(x * x) + 1e-12))` (mic_worker.py line 105);
the empty-block mean is taken as 0 (numpy yields NaN there). -/
noncomputable def rmsInstant (x : List ℝ) : ℝ :=
  Real.sqrt ((x.map fun v => v * v).sum / x.length + 1e-12)

/-- `_write_ring` as invoked from the callback: numpy raises when the
wrapped head segment is longer than the backing array. -/
def writeRingE {α : Type} (r : RingBuf α) (x : List α) :
    Except String (RingBuf α) :=
  if x.length = 0 then Except.ok (writeRing r x)
  else if r.w + x.length ≤ r.buf.length then Except.ok (writeRing r x)
  else if r.w + x.length - r.buf.length ≤ r.buf.length then
    Except.ok (writeRing r x)
  else Except.error "ValueError: could not broadcast input array"

/-- The worker-owned mutable pieces touched by the modelled operations:
the shared `SirenState`, the ring buffer, `self._meter_rms`, and
`self._stop`. -/
structure Worker where
  state : SirenState
  buf : RingBuf ℝ
  meterRms : ℝ
  stopFlag : Bool

/-- `MicWorker._callback` (mic_worker.py lines 96-111), in source order:
status handling, downmix, instantaneous RMS, EMA update, publish
`rms`/`db`, ring write, heartbeat stamp.  The body contains no try/except,
so a raise in the downmix or the ring write escapes (`some e`) with all
mutations already made retained. -/
noncomputable def callbackRun (wk : Worker) (indata : List (List ℝ))
    (status : String) (now : ℚ) : Worker × Option String :=
  let wk1 := { wk with state := statusStep wk.state status }
  match downmix indata with
  | Except.error e => (wk1, some e)
  | Except.ok x =>
    let r := rmsInstant x
    let m := (meterAlpha : ℝ) * r + (1 - (meterAlpha : ℝ)) * wk1.meterRms
    let st2 := { wk1.state with rms := m, db := 20 * Real.logb 10 (m + 1e-12) }
    let wk2 := { wk1 with meterRms := m, state := st2 }
    match writeRingE wk2.buf x with
    | Except.error e => (wk2, some e)
    | Except.ok b =>
      ({ wk2 with buf := b, state := { wk2.state with last_cb_ts := now } },
       none)

/-- The operations that can touch the worker during its lifetime: a
real-time callback invocation, one supervisor-loop iteration (covering
ticks, cadence/inference steps and stream restart), and an external
`stop()` request. -/
inductive WorkerOp where
  | callbackOp (indata : List (List ℝ)) (status : String) (now : ℚ)
  | iterationOp (wsec : ℚ) (env : IterEnv)
  | stopRequest

/-- Apply one operation to the worker. -/
noncomputable def applyOp (op : WorkerOp) (wk : Worker) : Worker :=
  match op with
  | WorkerOp.callbackOp indata status now => (callbackRun wk indata status now).1
  | WorkerOp.iterationOp wsec env =>
    { wk with state := (runIteration wsec env wk.state).st }
  | WorkerOp.stopRequest => { wk with stopFlag := true }

/-- How much one operation adds to `overflows`: 1 for a callback whose
status string is non-empty and contains "overflow" case-insensitively,
0 for everything else. -/
def opBump (op : WorkerOp) : Nat :=
  match op with
  | WorkerOp.callbackOp _ status _ =>
    if status ≠ "" ∧ hasOverflow status = true then 1 else 0
  | _ => 0

/-- A concrete worker as built by `MicWorker.__init__` with `need = 2`
(ring of 8 zero samples, meter at 0, stop flag clear). -/
noncomputable def worker0 : Worker :=
  { state := state0, buf := { buf := List.replicate 8 0, w := 0 },
    meterRms := 0, stopFlag := false }

/-- Iteration environment: the stream open raises, stop flag clear. -/
def envOpenErr : IterEnv :=
  { openFails := true, startFails := false, errMsg := "PortAudioError: boom",
    defaultSr := 48000, ticks := [], stopAtFinally := false,
    stopRaises := false, closeRaises := false }

/-- Iteration environment: clean run, stop observed at the first tick and at
the finally block, teardown succeeds. -/
def envClean : IterEnv :=
  { openFails := false, startFails := false, errMsg := "", defaultSr := 48000,
    ticks := [{ stopFlag := true, now := 0, cbTs := 0 }],
    stopAtFinally := true, stopRaises := false, closeRaises := false }

/-- Iteration environment: clean run but `stream.stop()` raises during
teardown. -/
def envStopRaise : IterEnv :=
  { openFails := false, startFails := false, errMsg := "", defaultSr := 48000,
    ticks := [{ stopFlag := true, now := 0, cbTs := 0 }],
    stopAtFinally := true, stopRaises := true, closeRaises := false }

/-- The spec scenario blocks: four blocks of 100 zeros then one block of 100
ones. -/
def scenarioBlocks : List (List Int) :=
  List.replicate 4 (List.replicate 100 0) ++ [List.replicate 100 1]

/-- C6: for every callback invocation with a non-empty status string, the
overflow counter increments iff the status contains "overflow"
case-insensitively, the status is copied verbatim into `last_error`, a
non-overflow status leaves the counter unchanged, and an empty status
changes nothing. -/
theorem statusStep_overflow_spec (st : SirenState) (status : String) :
    (status ≠ "" →
      (statusStep st status).last_error = status ∧
      ((statusStep st status).overflows = st.overflows + 1 ↔
        hasOverflow status = true) ∧
      (hasOverflow status = false →
        (statusStep st status).overflows = st.overflows)) ∧
    (status = "" → statusStep st status = st) := by
  constructor
  · intro h
    cases hov : hasOverflow status <;> simp [statusStep, h, hov]
  · intro h
    simp [statusStep, h]

/-- Witness for `statusStep_overflow_spec` at a concrete overflow status. -/
theorem statusStep_overflow_spec_witness :
    (statusStep state0 "input OVERFLOW!").last_error = "input OVERFLOW!" ∧
    (statusStep state0 "input OVERFLOW!").overflows = state0.overflows + 1 := by
  have h := (statusStep_overflow_spec state0 "input OVERFLOW!").1 (by decide)
  exact ⟨h.1, h.2.1.mpr (by decide)⟩

/-- C2 (code evaluated at the failing input): the cadence step as written in
`run_loop` never calls `self.infer` and unconditionally resets
`consecutive_hits` to 0, `conf` to 0 and `triggered` to false, so for the
scenario of three inference results (confidences [0.9, 0.9, 0.3], threshold
0.85, consecutive_needed 2) the triggered sequence is [false, false, false],
not the claimed [false, true, false], and `conf` never reflects the 0.9
results. -/
theorem cadence_stub_all_false (st : SirenState) :
    [(cadenceUpdate st).triggered,
     (cadenceUpdate (cadenceUpdate st)).triggered,
     (cadenceUpdate (cadenceUpdate (cadenceUpdate st))).triggered] =
      [false, false, false] ∧
    (cadenceUpdate st).consecutive_hits = 0 ∧
    (cadenceUpdate st).conf = 0 := by
  simp [cadenceUpdate]

/-- C3: if some tick satisfies the stall condition (a heartbeat was recorded
and more than 1.5 s passed since it) and no earlier tick stopped or
stalled, the inner poll loop exits with the stall break, records the stall
error message, and takes the stall transition exactly once (whatever comes
after the stall tick is never processed); in general one run of the poll
loop never takes more than one stall transition. -/
theorem stall_detected_once (wsec : ℚ) :
    (∀ (pre post : List Tick) (t : Tick) (st : SirenState) (lr : ℚ),
      (∀ u ∈ pre, u.stopFlag = false ∧ stallCond u = false) →
      t.stopFlag = false → stallCond t = true →
      (innerLoop wsec (pre ++ t :: post) st lr).exit = InnerExit.stall ∧
      (innerLoop wsec (pre ++ t :: post) st lr).st.last_error = stallMsg ∧
      (innerLoop wsec (pre ++ t :: post) st lr).stalls = 1) ∧
    (∀ (ticks : List Tick) (st : SirenState) (lr : ℚ),
      (innerLoop wsec ticks st lr).stalls ≤ 1) := by
  constructor
  · intro pre
    induction pre with
    | nil =>
      intro post t st lr _ hstop hstall
      simp [innerLoop, hstop, hstall]
    | cons u us ih =>
      intro post t st lr hpre hstop hstall
      have hu := hpre u (by simp)
      have hus : ∀ v ∈ us, v.stopFlag = false ∧ stallCond v = false := by
        intro v hv
        exact hpre v (by simp [hv])
      by_cases hc : wsec ≤ u.now - lr <;>
        simp [innerLoop, hu.1, hu.2, hc, ih post t _ _ hus hstop hstall]
  · intro ticks
    induction ticks with
    | nil => intro st lr; simp [innerLoop]
    | cons u us ih =>
      intro st lr
      by_cases h1 : u.stopFlag
      · simp [innerLoop, h1]
      · by_cases h2 : stallCond u
        · simp [innerLoop, h1, h2]
        · by_cases hc : wsec ≤ u.now - lr <;> simp [innerLoop, h1, h2, hc, ih]

/-- Witness for `stall_detected_once`: a single stalled tick. -/
theorem stall_detected_once_witness :
    (innerLoop 3 [{ stopFlag := false, now := 2, cbTs := 1/4 }] state0 0).exit
        = InnerExit.stall ∧
    (innerLoop 3 [{ stopFlag := false, now := 2, cbTs := 1/4 }] state0
        0).st.last_error = stallMsg ∧
    (innerLoop 3 [{ stopFlag := false, now := 2, cbTs := 1/4 }] state0
        0).stalls = 1 := by
  have h := (stall_detected_once 3).1 [] []
    { stopFlag := false, now := 2, cbTs := 1/4 } state0 0
    (by intro u hu; simp at hu) rfl (by norm_num [stallCond])
  simpa using h

/-- C4 counterexample: after a runtime error (the stream open raises) with
the stop flag clear, the iteration sleeps 0.5 s in the except handler AND
the 0.25 s backoff in the finally block — 0.75 s in total, not the claimed
exactly 0.5 s. -/
theorem iteration_sleep_counterexample :
    (runIteration 3 envOpenErr state0).sleeps = [1/2, 1/4] ∧
    (runIteration 3 envOpenErr state0).sleeps.sum ≠ 1/2 := by
  constructor
  · simp [runIteration, iterBody, envOpenErr]
  · simp [runIteration, iterBody, envOpenErr]

/-- C4 (amended): the total slept delay of one supervisor iteration is
0.5 s for a runtime error (open or start raising) plus, whenever the stop
flag is clear at the finally block, the fixed 0.25 s backoff; a stall or a
clean stop-loop exit contributes only the conditional 0.25 s backoff, and
with the stop flag set the backoff is skipped (so a clean stop exit sleeps
nothing, while a runtime error still sleeps its 0.5 s). -/
theorem iteration_sleep_total (wsec : ℚ) (env : IterEnv) (st0 : SirenState) :
    (runIteration wsec env st0).sleeps.sum =
      (if env.openFails ∨ env.startFails then 1/2 else 0) +
      (if env.stopAtFinally then 0 else 1/4) := by
  by_cases ho : env.openFails <;> by_cases hs : env.startFails <;>
    by_cases hf : env.stopAtFinally <;>
      simp [runIteration, iterBody, ho, hs, hf]

/-- C9 counterexample: on a clean stop exit with `stream.stop()` raising
during teardown, the stream was opened but `stream.close()` is never
called (the raise inside the teardown try skips it), so "stopped and
closed on every exit path" fails. -/
theorem teardown_close_skipped_counterexample :
    (runIteration 3 envStopRaise state0).opened = true ∧
    (runIteration 3 envStopRaise state0).tdError.isSome = true ∧
    (runIteration 3 envStopRaise state0).td.closeCalled = false := by
  refine ⟨?_, ?_, ?_⟩ <;>
    simp [runIteration, iterBody, teardownBody, envStopRaise, innerLoop]

/-- C9 (amended): an iteration never propagates an exception (`escaped`
is always `none`, teardown raises included); whenever a stream object was
assigned, teardown calls `stream.stop()`, and it calls `stream.close()`
exactly when the stream was assigned and `stream.stop()` did not raise. -/
theorem teardown_best_effort (wsec : ℚ) (env : IterEnv) (st0 : SirenState) :
    (runIteration wsec env st0).escaped = none ∧
    ((runIteration wsec env st0).opened = true →
      (runIteration wsec env st0).td.stopCalled = true) ∧
    ((runIteration wsec env st0).td.closeCalled = true ↔
      (runIteration wsec env st0).opened = true ∧ env.stopRaises = false) := by
  refine ⟨by simp [runIteration], ?_, ?_⟩ <;>
    by_cases ho : env.openFails <;> by_cases hs : env.startFails <;>
      by_cases hr : env.stopRaises <;> by_cases hc : env.closeRaises <;>
        simp [runIteration, iterBody, teardownBody, ho, hs, hr, hc]

/-- Witness for `teardown_best_effort`: a clean stop run closes the stream. -/
theorem teardown_best_effort_witness :
    (runIteration 3 envClean state0).escaped = none ∧
    (runIteration 3 envClean state0).td.stopCalled = true ∧
    (runIteration 3 envClean state0).td.closeCalled = true := by
  have h := teardown_best_effort 3 envClean state0
  refine ⟨h.1, h.2.1 ?_, h.2.2.mpr ⟨?_, rfl⟩⟩ <;>
    simp [runIteration, iterBody, envClean, innerLoop]

lemma statusStep_overflows (st : SirenState) (s : String) :
    (statusStep st s).overflows =
      st.overflows + (if s ≠ "" ∧ hasOverflow s = true then 1 else 0) := by
  by_cases h : s = ""
  · simp [statusStep, h]
  · cases hov : hasOverflow s <;> simp [statusStep, h, hov]

lemma innerLoop_overflows (wsec : ℚ) (ticks : List Tick) :
    ∀ (st : SirenState) (lr : ℚ),
      (innerLoop wsec ticks st lr).st.overflows = st.overflows := by
  induction ticks with
  | nil => intro st lr; simp [innerLoop]
  | cons t ts ih =>
    intro st lr
    by_cases h1 : t.stopFlag
    · simp [innerLoop, h1]
    · by_cases h2 : stallCond t
      · simp [innerLoop, h1, h2]
      · by_cases hc : wsec ≤ t.now - lr <;>
          simp [innerLoop, h1, h2, hc, ih, cadenceUpdate]

lemma runIteration_overflows (wsec : ℚ) (env : IterEnv) (st0 : SirenState) :
    (runIteration wsec env st0).st.overflows = st0.overflows := by
  by_cases ho : env.openFails <;> by_cases hs : env.startFails <;>
    simp [runIteration, iterBody, ho, hs, innerLoop_overflows]

lemma callbackRun_overflows (wk : Worker) (indata : List (List ℝ))
    (status : String) (now : ℚ) :
    (callbackRun wk indata status now).1.state.overflows =
      (statusStep wk.state status).overflows := by
  unfold callbackRun
  cases hdm : downmix indata with
  | error e => simp
  | ok x =>
    simp only []
    cases hw : writeRingE
        ({ wk with state := statusStep wk.state status } : Worker).buf x with
    | error e => simp [hw]
    | ok b => simp [hw]

lemma applyOp_overflows (op : WorkerOp) (wk : Worker) :
    (applyOp op wk).state.overflows = wk.state.overflows + opBump op := by
  cases op with
  | callbackOp indata status now =>
    show (callbackRun wk indata status now).1.state.overflows = _
    rw [callbackRun_overflows, statusStep_overflows]
    simp [opBump]
  | iterationOp wsec env =>
    show (runIteration wsec env wk.state).st.overflows = _
    rw [runIteration_overflows]
    simp [opBump]
  | stopRequest => simp [applyOp, opBump]

/-- C10: the overflow counter is nondecreasing across every modelled
operation (callback invocation, full supervisor iteration including
cadence/inference steps and restart, stop request): each operation adds
exactly `opBump` to it, where `opBump` is 1 only for a callback observing a
non-empty overflow status and 0 otherwise; hence over any sequence of
operations the counter never decreases or resets. -/
theorem overflows_monotone (op : WorkerOp) (wk : Worker) :
    (applyOp op wk).state.overflows = wk.state.overflows + opBump op ∧
    opBump op ≤ 1 ∧
    (∀ ops : List WorkerOp,
      wk.state.overflows ≤
        (ops.foldl (fun w o => applyOp o w) wk).state.overflows) := by
  refine ⟨applyOp_overflows op wk, ?_, ?_⟩
  · cases op with
    | callbackOp indata status now =>
      simp only [opBump]
      split <;> simp
    | iterationOp wsec env => simp [opBump]
    | stopRequest => simp [opBump]
  · intro ops
    induction ops generalizing wk with
    | nil => simp
    | cons o os ih =>
      calc wk.state.overflows ≤ (applyOp o wk).state.overflows := by
            rw [applyOp_overflows]; exact Nat.le_add_right _ _
        _ ≤ _ := by simpa using ih (applyOp o wk)

/-- C8 counterexample: the callback body has no try/except, so on a block
with an empty channel axis the downmix IndexError escapes the callback
(result exception is not `none`) instead of being caught and neutralized
internally. -/
theorem callback_exception_counterexample :
    (callbackRun worker0 [[]] "" 0).2 =
      some "IndexError: index 0 is out of bounds for axis 1" ∧
    (callbackRun worker0 [[]] "" 0).2 ≠ none := by
  have h : (callbackRun worker0 [[]] "" 0).2 =
      some "IndexError: index 0 is out of bounds for axis 1" := rfl
  exact ⟨h, by rw [h]; simp⟩

/-- C8 (amended): the callback performs no internal exception handling —
whenever the downmix raises, the exception escapes the callback unchanged,
with only the status-handling mutations already made retained; capture
survival relies on the supervisor stall-restart, not on catching inside the
callback. -/
theorem callback_error_escapes (wk : Worker) (indata : List (List ℝ))
    (status : String) (now : ℚ) (e : String)
    (h : downmix indata = Except.error e) :
    (callbackRun wk indata status now).2 = some e ∧
    (callbackRun wk indata status now).1.state = statusStep wk.state status := by
  constructor <;> simp [callbackRun, h]

/-- Witness for `callback_error_escapes` at a concrete zero-channel block. -/
theorem callback_error_escapes_witness :
    (callbackRun worker0 [[]] "input overflow" 0).2 =
      some "IndexError: index 0 is out of bounds for axis 1" ∧
    (callbackRun worker0 [[]] "input overflow" 0).1.state =
      statusStep worker0.state "input overflow" :=
  callback_error_escapes worker0 [[]] "input overflow" 0
    "IndexError: index 0 is out of bounds for axis 1" rfl

lemma emaClosed_concat (rs : List ℚ) (r : ℚ) :
    emaClosed (rs ++ [r]) = meterAlpha * r + (1 - meterAlpha) * emaClosed rs := by
  unfold emaClosed
  rw [List.length_append, List.length_singleton, Finset.sum_range_succ]
  have hlast : (rs ++ [r]).getD rs.length 0 = r := by
    rw [List.getD_eq_getElem?_getD, List.getElem?_append_right (le_refl _)]
    simp
  have hterm : ∀ i ∈ Finset.range rs.length,
      meterAlpha * (1 - meterAlpha) ^ (rs.length + 1 - 1 - i) *
          (rs ++ [r]).getD i 0 =
        (1 - meterAlpha) *
          (meterAlpha * (1 - meterAlpha) ^ (rs.length - 1 - i) * rs.getD i 0) := by
    intro i hi
    rw [Finset.mem_range] at hi
    have hgd : (rs ++ [r]).getD i 0 = rs.getD i 0 := by
      rw [List.getD_eq_getElem?_getD, List.getElem?_append, if_pos hi,
        ← List.getD_eq_getElem?_getD]
    have hexp : rs.length + 1 - 1 - i = (rs.length - 1 - i) + 1 := by omega
    rw [hgd, hexp, pow_succ]
    ring
  rw [Finset.sum_congr rfl hterm, ← Finset.mul_sum, hlast]
  have hexp0 : rs.length + 1 - 1 - rs.length = 0 := by omega
  rw [hexp0, pow_zero]
  ring

/-- C7: for every sequence of per-block instantaneous RMS values fed to the
level meter (starting at 0), the smoothed meter equals the closed-form EMA
with alpha = 0.20, and the published dB value is
20 * log10 of (that closed form + 1e-12). -/
theorem meter_closed_form (rs : List ℚ) :
    meterRun rs = emaClosed rs ∧
    dbPublished rs = 20 * Real.logb 10 ((emaClosed rs : ℝ) + 1e-12) := by
  have hm : meterRun rs = emaClosed rs := by
    induction rs using List.reverseRecOn with
    | nil => simp [meterRun, emaClosed]
    | append_singleton rs r ih =>
      rw [meterRun, List.foldl_append, List.foldl_cons, List.foldl_nil]
      have : List.foldl meterStep 0 rs = meterRun rs := rfl
      rw [this, ih, emaClosed_concat, meterStep]
  exact ⟨hm, by rw [dbPublished, hm]⟩

lemma writeRing_nil {α : Type} (s : RingBuf α) : writeRing s ([] : List α) = s := by
  simp [writeRing]

/-- C5: a block that wraps the buffer boundary writes the same buffer
contents and final cursor as the two sub-block writes (tail segment of
`capacity - w` samples, then the remaining samples) from the same cursor;
the cursor advances to `(w + n) % capacity`; a zero-length write changes
nothing. -/
theorem writeRing_split {α : Type} (r : RingBuf α) (x : List α)
    (hw : r.w < r.buf.length) (hwrap : r.buf.length < r.w + x.length)
    (hn : x.length ≤ r.buf.length) :
    writeRing r x =
      writeRing (writeRing r (x.take (r.buf.length - r.w)))
        (x.drop (r.buf.length - r.w)) ∧
    (writeRing r x).w = (r.w + x.length) % r.buf.length ∧
    (∀ s : RingBuf α, writeRing s ([] : List α) = s) := by
  have hx0 : x.length ≠ 0 := by omega
  have htk : (x.take (r.buf.length - r.w)).length = r.buf.length - r.w := by
    rw [List.length_take]; omega
  have hdp : (x.drop (r.buf.length - r.w)).length =
      x.length - (r.buf.length - r.w) := List.length_drop _ _
  have hL : writeRing r x = RingBuf.mk
      (x.drop (r.buf.length - r.w) ++
        (r.buf.take r.w).drop (r.w + x.length - r.buf.length) ++
        x.take (r.buf.length - r.w))
      ((r.w + x.length) % r.buf.length) := by
    simp only [writeRing]
    rw [if_neg hx0, if_neg (by omega)]
  have hI : writeRing r (x.take (r.buf.length - r.w)) = RingBuf.mk
      (r.buf.take r.w ++ x.take (r.buf.length - r.w)) 0 := by
    simp only [writeRing, htk]
    rw [if_neg (by omega), if_pos (by omega),
      show r.w + (r.buf.length - r.w) = r.buf.length from by omega,
      List.drop_length, List.append_nil, Nat.mod_self]
  have hIlen : (r.buf.take r.w ++ x.take (r.buf.length - r.w)).length =
      r.buf.length := by
    rw [List.length_append, List.length_take, htk]; omega
  have hO : writeRing (RingBuf.mk (r.buf.take r.w ++ x.take (r.buf.length - r.w)) 0)
      (x.drop (r.buf.length - r.w)) = RingBuf.mk
      (x.drop (r.buf.length - r.w) ++
        (r.buf.take r.w ++ x.take (r.buf.length - r.w)).drop
          (x.length - (r.buf.length - r.w)))
      ((x.length - (r.buf.length - r.w)) % r.buf.length) := by
    simp only [writeRing, hdp, hIlen]
    rw [if_neg (by omega), if_pos (by omega)]
    simp
  refine ⟨?_, by rw [hL], writeRing_nil⟩
  rw [hL, hI, hO]
  have hwlen : (r.buf.take r.w).length = r.w := by
    rw [List.length_take]; omega
  congr 1
  · rw [List.drop_append_eq_append_drop, hwlen,
      show x.length - (r.buf.length - r.w) - r.w = 0 from by omega,
      List.drop_zero, List.append_assoc,
      show x.length - (r.buf.length - r.w) = r.w + x.length - r.buf.length
        from by omega]
  · rw [Nat.mod_eq_sub_mod (by omega),
      Nat.mod_eq_of_lt (by omega), Nat.mod_eq_of_lt (by omega)]
    omega

/-- Witness for `writeRing_split`: a two-sample write wrapping a
four-sample buffer at cursor 3. -/
theorem writeRing_split_witness :
    writeRing ({ buf := [0, 0, 0, 0], w := 3 } : RingBuf Int) [1, 2] =
      writeRing
        (writeRing ({ buf := [0, 0, 0, 0], w := 3 } : RingBuf Int)
          ([1, 2].take 1))
        ([1, 2].drop 1) ∧
    (writeRing ({ buf := [0, 0, 0, 0], w := 3 } : RingBuf Int) [1, 2]).w =
      (3 + 2) % 4 := by
  have h := writeRing_split ({ buf := [0, 0, 0, 0], w := 3 } : RingBuf Int)
    [1, 2] (by decide) (by decide) (by decide)
  exact ⟨h.1, h.2.1⟩

lemma writeRing_fill {α : Type} (z : α) (L : Nat) (J x : List α)
    (hT : J.length + x.length ≤ L) :
    writeRing (RingBuf.mk (J ++ List.replicate (L - J.length) z) (J.length % L))
        x =
      RingBuf.mk ((J ++ x) ++ List.replicate (L - (J.length + x.length)) z)
        ((J.length + x.length) % L) := by
  by_cases hx : x.length = 0
  · have hxe : x = [] := List.length_eq_zero.mp hx
    subst hxe
    simp [writeRing_nil]
  · have hTL : J.length < L := by omega
    have hbl : (J ++ List.replicate (L - J.length) z).length = L := by
      simp; omega
    have hw : J.length % L = J.length := Nat.mod_eq_of_lt hTL
    simp only [writeRing, hbl, hw]
    rw [if_neg hx, if_pos hT]
    congr 1
    rw [List.take_left, List.drop_append_eq_append_drop,
      List.drop_eq_nil_of_le (by omega), List.drop_replicate,
      List.nil_append]
    congr 2
    omega

lemma foldl_writeRing_fill {α : Type} (z : α) (L : Nat) (blocks : List (List α)) :
    ∀ (J : List α),
      J.length + (blocks.map List.length).sum ≤ L →
      blocks.foldl writeRing
          (RingBuf.mk (J ++ List.replicate (L - J.length) z) (J.length % L)) =
        RingBuf.mk ((J ++ blocks.flatten) ++
            List.replicate (L - (J.length + (blocks.map List.length).sum)) z)
          ((J.length + (blocks.map List.length).sum) % L) := by
  induction blocks with
  | nil => intro J h; simp
  | cons b bs ih =>
    intro J h
    simp only [List.map_cons, List.sum_cons] at h
    rw [List.foldl_cons, writeRing_fill z L J b (by omega)]
    have h2 := ih (J ++ b) (by simp; omega)
    rw [List.length_append] at h2
    rw [h2]
    simp only [List.map_cons, List.sum_cons, List.flatten_cons,
      ← List.append_assoc, ← Nat.add_assoc]

lemma readLatestWindow_fill {α : Type} (z : α) (L T n : Nat) (J : List α)
    (hJ : J.length = T) (hTL : T ≤ L) (h1 : 1 ≤ n) (hnT : n ≤ T)
    (hnL : n < L) :
    readLatestWindow (RingBuf.mk (J ++ List.replicate (L - T) z) (T % L)) n =
      J.drop (T - n) := by
  have hbl : (J ++ List.replicate (L - T) z).length = L := by
    simp [hJ]; omega
  by_cases hT : T < L
  · have hw : T % L = T := Nat.mod_eq_of_lt hT
    have hstart : (((T : Int) - (n : Int)) % ((L : Nat) : Int)).toNat = T - n := by
      have e1 : (T : Int) - n = ((T - n : Nat) : Int) := by omega
      rw [e1, Int.emod_eq_of_lt (by omega) (by omega)]
      omega
    simp only [readLatestWindow, hbl, hw, hstart]
    rw [if_pos (by omega), ← hJ, List.take_left]
  · have hTeq : T = L := by omega
    subst hTeq
    have hw : T % T = 0 := Nat.mod_self T
    have hstart : (((0 : Nat) : Int) - (n : Int)) % ((T : Nat) : Int) =
        ((T - n : Nat) : Int) := by
      have e1 : ((0 : Nat) : Int) - n = ((T - n : Nat) : Int) + (T : Int) * (-1) := by
        omega
      rw [e1, Int.add_mul_emod_self_left]
      exact Int.emod_eq_of_lt (by omega) (by omega)
    simp only [readLatestWindow, hbl, hw, hstart]
    rw [if_neg (by omega)]
    simp [hJ]

set_option maxRecDepth 100000 in
/-- C1 (amended: the window size n must be at least 1): for every sequence
of ring writes totalling at most the capacity `need * 4`, and every n with
`1 ≤ n ≤ need` and at least n samples written, the latest-window read of
size n returns exactly the last n samples written, in order; and in the
spec scenario (capacity 400, need 100, four blocks of 100 zeros then one
block of 100 ones) the window read returns 100 ones. -/
theorem readWindow_last :
    (∀ (need n : Nat) (blocks : List (List Int)),
      1 ≤ n → n ≤ need →
      (blocks.map List.length).sum ≤ need * 4 →
      n ≤ (blocks.map List.length).sum →
      readLatestWindow (blocks.foldl writeRing (ringInit need)) n =
        blocks.flatten.drop (blocks.flatten.length - n)) ∧
    readLatestWindow (scenarioBlocks.foldl writeRing (ringInit 100)) 100 =
      List.replicate 100 1 := by
  constructor
  · intro need n blocks h1 hnneed htot hnw
    have hinit : ringInit need =
        RingBuf.mk (([] : List Int) ++
            List.replicate (need * 4 - ([] : List Int).length) 0)
          (([] : List Int).length % (need * 4)) := by
      simp [ringInit]
    rw [hinit, foldl_writeRing_fill 0 (need * 4) blocks [] (by simpa using htot)]
    simp only [List.nil_append, List.length_nil, Nat.zero_add]
    rw [readLatestWindow_fill (0 : Int) (need * 4) ((blocks.map List.length).sum)
      n blocks.flatten (List.length_flatten _) htot h1 hnw (by omega),
      List.length_flatten]
  · decide

/-- Witness for the universal part of `readWindow_last`: two one-sample
writes into a capacity-4 ring; the window of size 1 is the last sample. -/
theorem readWindow_last_witness :
    readLatestWindow ([[7], [8]].foldl writeRing (ringInit 1)) 1 =
      [[7], [8]].flatten.drop ([[7], [8]].flatten.length - 1) :=
  readWindow_last.1 1 1 [[7], [8]] (by decide) (by decide) (by decide)
    (by decide)

/-- C1 counterexample at n = 0: the claim as stated also covers n = 0
(`n ≤ need`, zero samples written), but the read then returns the whole
capacity-4 buffer rather than the last 0 samples (the empty list), because
`start = (w - 0) % L = w` makes the code take the wrap branch. -/
theorem readWindow_zero_counterexample :
    readLatestWindow (([] : List (List Int)).foldl writeRing (ringInit 1)) 0 ≠
      ([] : List (List Int)).flatten.drop
        (([] : List (List Int)).flatten.length - 0) := by
  decide
